import Mathlib

/-!
Shallow embedding of the Mesos provisioner
(src/slave/containerizer/mesos/provisioner/provisioner.cpp).

The provisioner owns an in-memory map from container ids to per-container
`Info` records (backend name → set of rootfs ids), and exposes three
operations: `recover`, `provision` (three chained steps) and `destroy`
(two chained steps).  External collaborators (Store, Backend, the on-disk
listing, rmdir) are modelled by explicit result parameters in `Env` /
function arguments; the actor's serialized bookkeeping is modelled by
ordinary sequential state passing.
-/

set_option autoImplicit false

namespace Provisioner

/-- A container id: a value plus an optional chain of ancestor values
(`ContainerID` protobuf: value + optional parent `ContainerID`).  The
parent, when present, is the head of `parentChain` with the remaining
chain as its own ancestors. -/
structure ContainerId where
  value : Nat
  parentChain : List Nat
deriving DecidableEq, Repr

/-- `has_parent() ? some parent() : none` on a `ContainerID`. -/
def ContainerId.getParent : ContainerId → Option ContainerId
  | ⟨_, []⟩ => none
  | ⟨_, p :: rest⟩ => some ⟨p, rest⟩

/-- Per-container record: `hashmap<string, hashset<string>> rootfses`
mapping a backend name to the set of rootfs ids provisioned under it.
Backend names and rootfs ids are modelled as `Nat`. -/
structure Info where
  rootfses : List (Nat × List Nat)
deriving DecidableEq, Repr

/-! ### Association-list operations (model of stout hashmap) -/

/-- Lookup in an association list (`hashmap::get` / `contains`). -/
def alookup {α β : Type} [DecidableEq α] : List (α × β) → α → Option β
  | [], _ => none
  | (k, v) :: rest, a => if k = a then some v else alookup rest a

/-- `hashmap::put`: replace the binding of an existing key in place, or
append a new binding. -/
def aput {α β : Type} [DecidableEq α] : List (α × β) → α → β → List (α × β)
  | [], a, b => [(a, b)]
  | (k, v) :: rest, a, b =>
      if k = a then (a, b) :: rest else (k, v) :: aput rest a b

/-- `hashmap::erase`: drop every binding of the key. -/
def aerase {α β : Type} [DecidableEq α] (m : List (α × β)) (a : α) : List (α × β) :=
  m.filter (fun kv => decide (kv.1 ≠ a))

theorem alookup_aput {α β : Type} [DecidableEq α] (m : List (α × β)) (k a : α) (b : β) :
    alookup (aput m k b) a = if k = a then some b else alookup m a := by
  induction m with
  | nil => simp [aput, alookup]
  | cons kv rest ih =>
      obtain ⟨k0, v0⟩ := kv
      by_cases h0 : k0 = k
      · subst h0
        by_cases h1 : k0 = a <;> simp [aput, alookup, h1]
      · by_cases h1 : k0 = a
        · subst h1
          have : ¬ k = k0 := fun h => h0 h.symm
          simp [aput, alookup, h0, this, ih]
        · simp [aput, alookup, h0, h1, ih]

theorem alookup_aerase {α β : Type} [DecidableEq α] (m : List (α × β)) (k a : α) :
    alookup (aerase m k) a = if k = a then none else alookup m a := by
  induction m with
  | nil => simp [aerase, alookup]
  | cons kv rest ih =>
      obtain ⟨k0, v0⟩ := kv
      by_cases h0 : k0 = k
      · subst h0
        have hd : aerase ((k0, v0) :: rest) k0 = aerase rest k0 := by
          simp [aerase, List.filter_cons]
        rw [hd, ih]
        by_cases h1 : k0 = a
        · subst h1; simp
        · simp [alookup, h1]
      · have hd : aerase ((k0, v0) :: rest) k = (k0, v0) :: aerase rest k := by
          simp [aerase, List.filter_cons, h0]
        rw [hd]
        by_cases h1 : k0 = a
        · subst h1
          have hk : ¬ k = k0 := fun h => h0 h.symm
          simp [alookup, hk]
        · simp [alookup, h1, ih]

theorem aput_fresh {α β : Type} [DecidableEq α] (m : List (α × β)) (k : α) (b : β)
    (h : alookup m k = none) : aput m k b = m ++ [(k, b)] := by
  induction m with
  | nil => simp [aput]
  | cons kv rest ih =>
      obtain ⟨k0, v0⟩ := kv
      by_cases h0 : k0 = k
      · subst h0; simp [alookup] at h
      · simp [alookup, h0] at h
        simp [aput, h0, ih h]

theorem alookup_append_left {α β : Type} [DecidableEq α]
    (m1 m2 : List (α × β)) (a : α) (h : alookup m1 a = none) :
    alookup (m1 ++ m2) a = alookup m2 a := by
  induction m1 with
  | nil => simp
  | cons kv rest ih =>
      obtain ⟨k0, v0⟩ := kv
      by_cases h0 : k0 = a
      · simp [alookup, h0] at h
      · simp [alookup, h0] at h ⊢
        exact ih h

/-! ### Layer-merge resolver (whiteout handling in `__provision`)

A composed rootfs tree is modelled as a finite list of (path, kind)
entries, a path being the list of name components below the rootfs root.
`__provision` walks the tree with fts (FTS_NOCHDIR | FTS_PHYSICAL),
collects every regular file whose basename starts with `.wh.` (removing
the marker file itself during the walk), then clears the contents of
every directory holding an opaque marker `.wh..wh..opq`, and finally
removes every still-existing whiteout target. -/

/-- A file-name component. -/
abbrev FName := List Char

/-- A path below the rootfs root. -/
abbrev FPath := List FName

inductive FKind where
  | file
  | dir
deriving DecidableEq, Repr

/-- A rootfs tree: the set of entries fts would visit, with their kind. -/
abbrev FS := List (FPath × FKind)

/-- `docker::spec::WHITEOUT_PREFIX` = ".wh.". -/
def whMarker : FName := ['.', 'w', 'h', '.']

/-- `docker::spec::WHITEOUT_OPAQUE_PREFIX` = ".wh..wh..opq". -/
def opqMarker : FName :=
  ['.', 'w', 'h', '.', '.', 'w', 'h', '.', '.', 'o', 'p', 'q']

/-- `Path::dirname()`: the path of the containing directory. -/
def dirnameOf (p : FPath) : FPath := p.dropLast

/-- `strings::startsWith(name, WHITEOUT_PREFIX)`. -/
def isMarkerName (n : FName) : Bool := whMarker.isPrefixOf n

/-- `basename().substr(strlen(WHITEOUT_PREFIX))`. -/
def stripMarker (n : FName) : FName := n.drop whMarker.length

/-- The fts walk collects only regular files (FTS_F) whose basename
starts with the whiteout marker. -/
def isMarkerEntry (e : FPath × FKind) : Bool :=
  decide (e.2 = FKind.file) &&
    (match e.1.getLast? with
     | some n => isMarkerName n
     | none => false)

/-- Among marker files, the opaque markers (`fts_name == WHITEOUT_OPAQUE_PREFIX`). -/
def isOpaqueEntry (e : FPath × FKind) : Bool :=
  isMarkerEntry e && decide (e.1.getLast? = some opqMarker)

/-- Directories pushed to `whiteoutOpaque` during the walk, in walk order. -/
def opaqueDirs (fs : FS) : List FPath :=
  fs.filterMap (fun e => if isOpaqueEntry e then some (dirnameOf e.1) else none)

/-- Paths pushed to `whiteout` during the walk (dirname joined with the
de-prefixed basename), in walk order. -/
def whiteoutTargets (fs : FS) : List FPath :=
  fs.filterMap (fun e =>
    if isMarkerEntry e && !isOpaqueEntry e then
      some (dirnameOf e.1 ++ [stripMarker (e.1.getLast?.getD [])])
    else none)

/-- `os::rm` applied to each marker file during the walk. -/
def removeMarkers (fs : FS) : FS :=
  fs.filter (fun e => !isMarkerEntry e)

/-- `d` is a strict path-prefix of `p` (an entry inside directory `d`). -/
def strictlyUnder (d p : FPath) : Bool :=
  d.isPrefixOf p && decide (d.length < p.length)

/-- `os::rmdir(path, true, false)`: remove everything under the
directory while preserving the directory itself. -/
def removeContents (fs : FS) (d : FPath) : FS :=
  fs.filter (fun e => !strictlyUnder d e.1)

/-- `os::rmdir(path)` with default flags: remove the directory and its
whole subtree. -/
def removeTree (fs : FS) (w : FPath) : FS :=
  fs.filter (fun e => !(strictlyUnder w e.1 || decide (e.1 = w)))

/-- `os::rm(path)`: remove one file. -/
def removeFile (fs : FS) (w : FPath) : FS :=
  fs.filter (fun e => !decide (e.1 = w))

/-- `os::exists(path)`. -/
def fsExists (fs : FS) (p : FPath) : Bool :=
  fs.any (fun e => decide (e.1 = p))

/-- `os::stat::isdir(path)`. -/
def fsIsDir (fs : FS) (p : FPath) : Bool :=
  fs.any (fun e => decide (e.1 = p) && decide (e.2 = FKind.dir))

/-- Second phase: clear the contents of every opaque-marked directory. -/
def applyOpaque : FS → List FPath → FS
  | fs, [] => fs
  | fs, d :: ds => applyOpaque (removeContents fs d) ds

/-- Third phase: remove every whiteout target that still exists, as a
directory tree if it is a directory and as a file otherwise. -/
def applyWhiteouts : FS → List FPath → FS
  | fs, [] => fs
  | fs, w :: ws =>
      if fsExists fs w then
        if fsIsDir fs w then applyWhiteouts (removeTree fs w) ws
        else applyWhiteouts (removeFile fs w) ws
      else applyWhiteouts fs ws

/-- The whole layer-merge step of `__provision` on the composed tree. -/
def resolveWhiteouts (fs : FS) : FS :=
  applyWhiteouts (applyOpaque (removeMarkers fs) (opaqueDirs fs)) (whiteoutTargets fs)

example :
    resolveWhiteouts
      [([['d']], FKind.dir), ([['d'], ['x']], FKind.file), ([['a']], FKind.file),
       ([['.', 'w', 'h', '.', 'a']], FKind.file), ([['d'], opqMarker], FKind.file)] =
      [([['d']], FKind.dir)] := by decide

/-! ### Lifecycle actor state and configuration -/

/-- Image type tag (`Image::Type`). -/
inductive ImageType where
  | docker
  | appc
deriving DecidableEq, Repr

/-- An image: type tag plus an opaque reference. -/
structure Image where
  ty : ImageType
  reference : Nat
deriving DecidableEq, Repr

/-- `ImageInfo` produced by `Store::get`: ordered layer paths (modelled
as opaque ids, lowest first) plus the optional manifests. -/
structure ImageInfo where
  layers : List Nat
  dockerManifest : Option Nat
  appcManifest : Option Nat
deriving DecidableEq, Repr

/-- A rootfs path as computed by
`provisioner::paths::getContainerRootfsDir(rootDir, containerId, backend, rootfsId)`:
deterministic in its three varying arguments. -/
structure RootfsPath where
  containerId : ContainerId
  backend : Nat
  rootfsId : Nat
deriving DecidableEq, Repr

/-- The `ProvisionInfo` returned to the caller. -/
structure ProvisionInfo where
  rootfs : RootfsPath
  dockerManifest : Option Nat
  appcManifest : Option Nat
deriving DecidableEq, Repr

/-- Static configuration fixed at `Provisioner::create`: the key sets of
the `stores` and `backends` hashmaps, and `flags.image_provisioner_backend`. -/
structure Config where
  storeTypes : List ImageType
  backendNames : List Nat
  imageProvisionerBackend : Nat
deriving DecidableEq, Repr

/-- Results of the external collaborators (Backend::destroy per rootfs,
Store::recover per store, os::rmdir of the container directory). -/
structure Env where
  backendDestroyOk : ContainerId → Nat → Nat → Bool
  storeRecoverOk : List Bool
  rmdirContainerDirOk : ContainerId → Bool

/-- The actor's mutable state: the `infos` hashmap and the
`remove_container_errors` counter. -/
structure PState where
  infos : List (ContainerId × Info)
  removeContainerErrors : Nat
deriving DecidableEq, Repr

/-- `infos[containerId]->rootfses[backend].insert(rootfsId)` on one Info
(operator[] default-constructs the missing set). -/
def insertRootfs (info : Info) (backend rootfsId : Nat) : Info :=
  match alookup info.rootfses backend with
  | some rids =>
      ⟨aput info.rootfses backend (if rootfsId ∈ rids then rids else rids ++ [rootfsId])⟩
  | none => ⟨aput info.rootfses backend [rootfsId]⟩

/-! ### destroy / _destroy -/

/-- How a `destroy` future resolves: an ordinary bool, a Failure
("Unknown backend" or a failed backend-level destroy), or the fatal
CHECK abort on a still-registered child. -/
inductive DestroyOutcome where
  | ret (b : Bool)
  | unknownBackend
  | cleanupFailed
  | abortChild
deriving DecidableEq, Repr

/-- One `Backend::destroy(rootfs, backendDir)` call, identified by
(containerId, backend, rootfsId). -/
abbrev BackendDestroyCall := ContainerId × Nat × Nat

/-- The child-invariant CHECK: some registered entry's id has
`parent() == containerId`. -/
def hasChildOf (infos : List (ContainerId × Info)) (cid : ContainerId) : Bool :=
  infos.any (fun kv => decide (kv.1.getParent = some cid))

/-- The foreach loop pushing one `Backend::destroy` future per recorded
(backend, rootfsId) pair; returns Failure (first component false) upon
the first backend name missing from `backends`, with the futures already
pushed until then. -/
def issueBackendDestroys (cfg : Config) (cid : ContainerId) :
    List (Nat × List Nat) → Bool × List BackendDestroyCall
  | [] => (true, [])
  | (backend, rids) :: rest =>
      if backend ∈ cfg.backendNames then
        let r := issueBackendDestroys cfg cid rest
        (r.1, rids.map (fun rid => (cid, backend, rid)) ++ r.2)
      else (false, [])

/-- `ProvisionerProcess::_destroy`: remove the container's top-level
directory; on failure log, bump `remove_container_errors`, and still
return true. -/
def _destroy (env : Env) (st : PState) (cid : ContainerId) : PState × DestroyOutcome :=
  if env.rmdirContainerDirOk cid then (st, .ret true)
  else ({ st with removeContainerErrors := st.removeContainerErrors + 1 }, .ret true)

/-- `ProvisionerProcess::destroy`: return false for an unregistered id;
CHECK-abort if a registered child remains; erase the entry before any
physical cleanup; issue the backend-level destroys; on their collected
success run `_destroy`.  Also returns the backend destroy calls issued. -/
def destroy (cfg : Config) (env : Env) (st : PState) (cid : ContainerId) :
    PState × DestroyOutcome × List BackendDestroyCall :=
  match alookup st.infos cid with
  | none => (st, .ret false, [])
  | some info =>
      if hasChildOf st.infos cid then
        (st, .abortChild, [])
      else
        let st1 : PState := { st with infos := aerase st.infos cid }
        let r := issueBackendDestroys cfg cid info.rootfses
        if r.1 then
          if r.2.all (fun c => env.backendDestroyOk c.1 c.2.1 c.2.2) then
            let d := _destroy env st1 cid
            (d.1, d.2, r.2)
          else (st1, .cleanupFailed, r.2)
        else (st1, .unknownBackend, r.2)

/-! ### recover -/

/-- One on-disk container as seen by the recovery scan:
`listContainerRootfses` either fails (`none`) or yields the backend →
rootfs-ids structure. -/
structure DiskEntry where
  containerId : ContainerId
  listing : Option (List (Nat × List Nat))
deriving DecidableEq, Repr

/-- How `recover` resolves: `listContainers` failed, a per-container
scan step failed (rootfs listing error or unrecognized backend), the
CHECK abort inside an orphan destroy, or completion with the collected
success bit. -/
inductive RecoverOutcome where
  | listContainersFailed
  | scanFailed
  | abortChild
  | done (success : Bool)
deriving DecidableEq, Repr

/-- The `foreachkey` loop building one `Info` from a rootfs listing;
fails (container left unregistered) if any backend name is not a
configured backend. -/
def buildInfo (cfg : Config) : List (Nat × List Nat) → Option Info
  | [] => some ⟨[]⟩
  | (backend, rids) :: rest =>
      if backend ∈ cfg.backendNames then
        (buildInfo cfg rest).map (fun i => ⟨(backend, rids) :: i.rootfses⟩)
      else none

/-- The scan loop of `recover`: register every listed container in
`infos` (failing fast on a bad listing, with earlier registrations
kept), and collect the ids absent from `knownContainerIds`. -/
def scanContainers (cfg : Config) (known : List ContainerId) :
    PState → List DiskEntry → PState × Option (List ContainerId)
  | st, [] => (st, some [])
  | st, e :: rest =>
      match e.listing with
      | none => (st, none)
      | some listing =>
          match buildInfo cfg listing with
          | none => (st, none)
          | some info =>
              let r := scanContainers cfg known
                { st with infos := aput st.infos e.containerId info } rest
              (r.1, r.2.map (fun us =>
                if e.containerId ∈ known then us else e.containerId :: us))

/-- A destroy future resolved without Failure. -/
def destroyFutureOk : DestroyOutcome → Bool
  | .ret _ => true
  | _ => false

/-- The cleanup loop of `recover`: call `destroy` on every unknown
container; `collect` fails iff any destroy future fails; the CHECK abort
stops everything.  Also returns the ids actually passed to `destroy`. -/
def destroyAll (cfg : Config) (env : Env) :
    PState → List ContainerId → PState × Option Bool × List ContainerId
  | st, [] => (st, some true, [])
  | st, c :: cs =>
      let d := destroy cfg env st c
      match d.2.1 with
      | .abortChild => (d.1, none, [c])
      | out =>
          let r := destroyAll cfg env d.1 cs
          (r.1, r.2.1.map (fun b => destroyFutureOk out && b), c :: r.2.2)

/-- `ProvisionerProcess::recover`: list containers, scan and register
them, destroy the unknown ones, recover every store, and succeed iff
both the cleanup collect and the store-recovery collect succeed. -/
def recover (cfg : Config) (env : Env) (st : PState)
    (disk : Option (List DiskEntry)) (known : List ContainerId) :
    PState × RecoverOutcome × List ContainerId :=
  match disk with
  | none => (st, .listContainersFailed, [])
  | some entries =>
      let s := scanContainers cfg known st entries
      match s.2 with
      | none => (s.1, .scanFailed, [])
      | some unknownIds =>
          let c := destroyAll cfg env s.1 unknownIds
          match c.2.1 with
          | none => (c.1, .abortChild, c.2.2)
          | some cleanupOk =>
              (c.1, .done (cleanupOk && env.storeRecoverOk.all (fun b => b)), c.2.2)

/-! ### provision / _provision / __provision -/

/-- Observable events of one provision call, in execution order. -/
inductive Event where
  | storeGet (image : Image)
  | registered (cid : ContainerId) (backend : Nat) (rootfsId : Nat)
  | backendProvision (layers : List Nat) (rootfs : RootfsPath)
deriving DecidableEq, Repr

/-- How a `provision` future resolves. -/
inductive ProvisionResult where
  | failureUnsupportedType
  | failureStoreGet
  | failureBackendProvision
  | abortBackendMissing
  | ok (pi : ProvisionInfo)
deriving DecidableEq, Repr

/-- The registration step of `_provision`: create the container's Info
if absent, then insert the fresh rootfs id under the configured backend. -/
def registerRootfs (st : PState) (cid : ContainerId) (backend rootfsId : Nat) : PState :=
  let infos1 :=
    if (alookup st.infos cid).isSome then st.infos
    else aput st.infos cid ⟨[]⟩
  match alookup infos1 cid with
  | some info => { st with infos := aput infos1 cid (insertRootfs info backend rootfsId) }
  | none => { st with infos := infos1 }

/-- `ProvisionerProcess::__provision` (non-Windows branch): skip the
layer merge for single-layer or non-docker images and return both
manifests; otherwise resolve whiteouts and return the docker manifest
with `None()` in the appc slot. -/
def __provision (rootfs : RootfsPath) (image : Image) (imageInfo : ImageInfo) (fs : FS) :
    ProvisionInfo × FS :=
  if imageInfo.layers.length = 1 ∨ image.ty ≠ ImageType.docker then
    (⟨rootfs, imageInfo.dockerManifest, imageInfo.appcManifest⟩, fs)
  else
    (⟨rootfs, imageInfo.dockerManifest, none⟩, resolveWhiteouts fs)

/-- `ProvisionerProcess::_provision`: CHECK the configured backend,
mint the rootfs path from the fresh rootfs id, register the reservation
in `infos`, then call `Backend::provision` (its success given by
`backendOk`) and continue with `__provision`. -/
def _provision (cfg : Config) (st : PState) (cid : ContainerId) (image : Image)
    (imageInfo : ImageInfo) (rootfsId : Nat) (backendOk : Bool) (fs : FS) :
    PState × FS × ProvisionResult × List Event :=
  let backend := cfg.imageProvisionerBackend
  if backend ∈ cfg.backendNames then
    let rootfs : RootfsPath := ⟨cid, backend, rootfsId⟩
    let st1 := registerRootfs st cid backend rootfsId
    let evs := [Event.registered cid backend rootfsId,
                Event.backendProvision imageInfo.layers rootfs]
    if backendOk then
      let p := __provision rootfs image imageInfo fs
      (st1, p.2, .ok p.1, evs)
    else (st1, fs, .failureBackendProvision, evs)
  else (st, fs, .abortBackendMissing, [])

/-- `ProvisionerProcess::provision`: fail on an image type with no
configured store, call `Store::get` (its result given by
`storeGetResult`), then continue with `_provision`. -/
def provision (cfg : Config) (st : PState) (cid : ContainerId) (image : Image)
    (storeGetResult : Option ImageInfo) (rootfsId : Nat) (backendOk : Bool) (fs : FS) :
    PState × FS × ProvisionResult × List Event :=
  if image.ty ∈ cfg.storeTypes then
    match storeGetResult with
    | none => (st, fs, .failureStoreGet, [Event.storeGet image])
    | some imageInfo =>
        let r := _provision cfg st cid image imageInfo rootfsId backendOk fs
        (r.1, r.2.1, r.2.2.1, Event.storeGet image :: r.2.2.2)
  else (st, fs, .failureUnsupportedType, [])

/-! ### Helper lemmas -/

theorem mem_aput {α β : Type} [DecidableEq α] (m : List (α × β)) (a : α) (b : β) :
    ∀ kv ∈ aput m a b, kv = (a, b) ∨ kv ∈ m := by
  induction m with
  | nil => simp [aput]
  | cons kv0 rest ih =>
      obtain ⟨k0, v0⟩ := kv0
      by_cases h0 : k0 = a
      · simp only [aput, if_pos h0]
        intro kv hkv
        rcases List.mem_cons.mp hkv with h | h
        · exact Or.inl h
        · exact Or.inr (List.mem_cons_of_mem _ h)
      · simp only [aput, if_neg h0]
        intro kv hkv
        rcases List.mem_cons.mp hkv with h | h
        · exact Or.inr (h ▸ List.mem_cons_self _ _)
        · rcases ih kv h with h1 | h1
          · exact Or.inl h1
          · exact Or.inr (List.mem_cons_of_mem _ h1)

theorem mem_of_mem_aerase {α β : Type} [DecidableEq α] {m : List (α × β)} {a : α}
    {kv : α × β} (h : kv ∈ aerase m a) : kv ∈ m :=
  List.mem_of_mem_filter h

theorem insertRootfs_lookup (info : Info) (backend rootfsId : Nat) :
    ∃ rids, alookup (insertRootfs info backend rootfsId).rootfses backend = some rids ∧
      rootfsId ∈ rids := by
  unfold insertRootfs
  cases h : alookup info.rootfses backend with
  | none =>
      refine ⟨[rootfsId], ?_, List.mem_singleton.mpr rfl⟩
      simp [alookup_aput]
  | some rids =>
      by_cases hmem : rootfsId ∈ rids
      · exact ⟨rids, by simp [alookup_aput, hmem], hmem⟩
      · refine ⟨rids ++ [rootfsId], by simp [alookup_aput, hmem], ?_⟩
        simp

theorem insertRootfs_backend_cases (info : Info) (backend rootfsId : Nat) :
    ∀ br ∈ (insertRootfs info backend rootfsId).rootfses,
      br.1 = backend ∨ br ∈ info.rootfses := by
  unfold insertRootfs
  cases h : alookup info.rootfses backend with
  | none =>
      intro br hbr
      rcases mem_aput _ _ _ br hbr with h1 | h1
      · exact Or.inl (by rw [h1])
      · exact Or.inr h1
  | some rids =>
      intro br hbr
      rcases mem_aput _ _ _ br hbr with h1 | h1
      · exact Or.inl (by rw [h1])
      · exact Or.inr h1

theorem alookup_registerRootfs_self (st : PState) (cid : ContainerId)
    (backend rootfsId : Nat) :
    ∃ rids,
      ((alookup (registerRootfs st cid backend rootfsId).infos cid).bind
        (fun info => alookup info.rootfses backend)) = some rids ∧
      rootfsId ∈ rids := by
  unfold registerRootfs
  cases h : alookup st.infos cid with
  | none =>
      have h1 : alookup (aput st.infos cid (Info.mk [])) cid = some ⟨[]⟩ := by
        simp [alookup_aput]
      simp only [h, Option.isSome_none, Bool.false_eq_true, if_false, h1]
      obtain ⟨rids, hr, hm⟩ := insertRootfs_lookup ⟨[]⟩ backend rootfsId
      exact ⟨rids, by simp [alookup_aput, hr], hm⟩
  | some info =>
      simp only [h, Option.isSome_some, if_true]
      obtain ⟨rids, hr, hm⟩ := insertRootfs_lookup info backend rootfsId
      exact ⟨rids, by simp [h, alookup_aput, hr], hm⟩

/-- The full list of backend-destroy calls for one Info, in record order. -/
def allBackendCalls (cid : ContainerId) : List (Nat × List Nat) → List BackendDestroyCall
  | [] => []
  | (backend, rids) :: rest =>
      rids.map (fun rid => (cid, backend, rid)) ++ allBackendCalls cid rest

theorem issueBackendDestroys_eq (cfg : Config) (cid : ContainerId)
    (l : List (Nat × List Nat)) (h : ∀ br ∈ l, br.1 ∈ cfg.backendNames) :
    issueBackendDestroys cfg cid l = (true, allBackendCalls cid l) := by
  induction l with
  | nil => rfl
  | cons br rest ih =>
      obtain ⟨backend, rids⟩ := br
      have hb : backend ∈ cfg.backendNames := h (backend, rids) (List.mem_cons_self _ _)
      have hrest : ∀ br ∈ rest, br.1 ∈ cfg.backendNames :=
        fun br hbr => h br (List.mem_cons_of_mem _ hbr)
      simp [issueBackendDestroys, hb, ih hrest, allBackendCalls]

theorem list_all_map {α β : Type} (f : α → β) (p : β → Bool) (l : List α) :
    (l.map f).all p = l.all (fun a => p (f a)) := by
  induction l with
  | nil => rfl
  | cons a as ih => simp [List.all_cons, ih]

theorem allBackendCalls_all (env : Env) (cid : ContainerId) (l : List (Nat × List Nat)) :
    ((allBackendCalls cid l).all (fun c => env.backendDestroyOk c.1 c.2.1 c.2.2)) =
      l.all (fun br => br.2.all (fun rid => env.backendDestroyOk cid br.1 rid)) := by
  induction l with
  | nil => rfl
  | cons br rest ih =>
      obtain ⟨backend, rids⟩ := br
      simp only [allBackendCalls, List.all_append, list_all_map, ih, List.all_cons]

theorem hasChildOf_eq_false {infos : List (ContainerId × Info)} {cid : ContainerId}
    (h : ∀ kv ∈ infos, kv.1.getParent ≠ some cid) : hasChildOf infos cid = false := by
  unfold hasChildOf
  rw [List.any_eq_false]
  intro kv hkv
  simp [h kv hkv]

theorem destroy_not_registered (cfg : Config) (env : Env) (st : PState)
    (cid : ContainerId) (h : alookup st.infos cid = none) :
    destroy cfg env st cid = (st, DestroyOutcome.ret false, []) := by
  unfold destroy
  rw [h]

theorem destroy_abort_of_child (cfg : Config) (env : Env) (st : PState)
    (cid : ContainerId)
    (hreg : (alookup st.infos cid).isSome = true)
    (hchild : hasChildOf st.infos cid = true) :
    destroy cfg env st cid = (st, DestroyOutcome.abortChild, []) := by
  unfold destroy
  cases h : alookup st.infos cid with
  | none => rw [h] at hreg; simp at hreg
  | some info => simp [hchild]

/-- One successful-path unfolding of `destroy`: registered, no child,
all backends recognized. -/
theorem destroy_eq_of_ok (cfg : Config) (env : Env) (st : PState) (cid : ContainerId)
    (info : Info)
    (hreg : alookup st.infos cid = some info)
    (hnochild : hasChildOf st.infos cid = false)
    (hbackends : ∀ br ∈ info.rootfses, br.1 ∈ cfg.backendNames) :
    destroy cfg env st cid =
      (if (allBackendCalls cid info.rootfses).all
            (fun c => env.backendDestroyOk c.1 c.2.1 c.2.2) then
        ((_destroy env { st with infos := aerase st.infos cid } cid).1,
          DestroyOutcome.ret true, allBackendCalls cid info.rootfses)
       else
        ({ st with infos := aerase st.infos cid }, DestroyOutcome.cleanupFailed,
          allBackendCalls cid info.rootfses)) := by
  unfold destroy
  rw [hreg]
  simp only [hnochild, Bool.false_eq_true, if_false,
    issueBackendDestroys_eq cfg cid info.rootfses hbackends]
  by_cases hall : (allBackendCalls cid info.rootfses).all
      (fun c => env.backendDestroyOk c.1 c.2.1 c.2.2) = true
  · simp only [hall, if_true]
    unfold _destroy
    by_cases hrm : env.rmdirContainerDirOk cid = true <;> simp [hrm]
  · simp only [Bool.not_eq_true] at hall
    simp [hall]

/-! ### Concrete fixtures -/

/-- A configuration with both store types and backends 0 and 1, default
backend 0 (as `create` guarantees, the default is among the backends). -/
def cfgEx : Config := ⟨[ImageType.docker, ImageType.appc], [0, 1], 0⟩

/-- An environment in which every external call succeeds. -/
def envAllOk : Env := ⟨fun _ _ _ => true, [true], fun _ => true⟩

/-- An environment in which only the final container-directory removal fails. -/
def envRmFail : Env := ⟨fun _ _ _ => true, [true], fun _ => false⟩

def cidEx : ContainerId := ⟨0, []⟩

/-- A nested container whose parent is `parentEx`. -/
def childEx : ContainerId := ⟨5, [1]⟩

def parentEx : ContainerId := ⟨1, []⟩

/-- The composed tree of the C2 scenario: lower layer contributed file
`a` and directory `d` containing `x`; the upper layer contributed the
whiteout marker `.wh.a` and an opaque marker directly inside `d`. -/
def fsWhiteoutScenario : FS :=
  [([['d']], FKind.dir), ([['d'], ['x']], FKind.file), ([['a']], FKind.file),
   ([['.', 'w', 'h', '.', 'a']], FKind.file), ([['d'], opqMarker], FKind.file)]

/-! ### Claims -/

/-- C2: after the layer-merge step on the two-layer whiteout scenario
(lower layer: file `a`, directory `d` with `x`; upper layer: whiteout
marker for `a`, opaque marker inside `d`), the file `a` is absent,
directory `d` still exists but contains none of the lower layer's
contents, and no marker-prefixed files remain anywhere in the tree. -/
theorem whiteout_merge_scenario :
    fsExists (resolveWhiteouts fsWhiteoutScenario) [['a']] = false ∧
    fsIsDir (resolveWhiteouts fsWhiteoutScenario) [['d']] = true ∧
    (resolveWhiteouts fsWhiteoutScenario).all
      (fun e => !strictlyUnder [['d']] e.1) = true ∧
    (resolveWhiteouts fsWhiteoutScenario).all (fun e => !isMarkerEntry e) = true ∧
    resolveWhiteouts fsWhiteoutScenario = [([['d']], FKind.dir)] := by
  decide

/-- C5 counterexample: a successful provision of a two-layer docker
image whose ImageInfo carries an appc manifest (some 5) returns a
ProvisionInfo whose appc slot is `none`, not the ImageInfo's appc
manifest — the merge step drops it. -/
theorem provision_appc_dropped_counterexample :
    (provision cfgEx ⟨[], 0⟩ cidEx ⟨ImageType.docker, 0⟩
        (some ⟨[1, 2], some 3, some 5⟩) 7 true []).2.2.1 =
      ProvisionResult.ok ⟨⟨cidEx, 0, 7⟩, some 3, none⟩ ∧
    (ImageInfo.mk [1, 2] (some 3) (some 5)).appcManifest = some 5 := by
  decide

/-- C5 amended: every successful provision returns the composed rootfs
path and the docker manifest of the ImageInfo; the appc manifest is
carried through only when the layer-merge step is skipped (single layer
or non-docker type) and is `none` when the merge ran. -/
theorem provision_result_manifests (cfg : Config) (st : PState) (cid : ContainerId)
    (image : Image) (imageInfo : ImageInfo) (rootfsId : Nat) (fs : FS)
    (hstore : image.ty ∈ cfg.storeTypes)
    (hbackend : cfg.imageProvisionerBackend ∈ cfg.backendNames) :
    (provision cfg st cid image (some imageInfo) rootfsId true fs).2.2.1 =
      ProvisionResult.ok
        ⟨⟨cid, cfg.imageProvisionerBackend, rootfsId⟩, imageInfo.dockerManifest,
         if imageInfo.layers.length = 1 ∨ image.ty ≠ ImageType.docker then
           imageInfo.appcManifest
         else none⟩ := by
  unfold provision _provision __provision
  simp only [hstore, if_pos, hbackend]
  split <;> simp

/-- C5 amended, witness: a single-layer appc image keeps both manifests. -/
theorem provision_result_manifests_witness :
    (provision cfgEx ⟨[], 0⟩ cidEx ⟨ImageType.appc, 0⟩
        (some ⟨[1], some 2, some 3⟩) 7 true []).2.2.1 =
      ProvisionResult.ok
        ⟨⟨cidEx, 0, 7⟩, (ImageInfo.mk [1] (some 2) (some 3)).dockerManifest,
         if (ImageInfo.mk [1] (some 2) (some 3)).layers.length = 1 ∨
             (Image.mk ImageType.appc 0).ty ≠ ImageType.docker then
           (ImageInfo.mk [1] (some 2) (some 3)).appcManifest
         else none⟩ :=
  provision_result_manifests cfgEx ⟨[], 0⟩ cidEx ⟨ImageType.appc, 0⟩
    ⟨[1], some 2, some 3⟩ 7 [] (by decide) (by decide)

/-- A state holding only the nested container `childEx`, whose parent
`parentEx` is itself not registered. -/
def stOnlyChild : PState := ⟨[(childEx, ⟨[]⟩)], 0⟩

/-- C6 counterexample: with a registered entry whose parent equals
`parentEx` but with `parentEx` itself unregistered, `destroy parentEx`
returns the ordinary `false` (the not-registered early return fires
before the child CHECK), it does not trigger the fatal abort. -/
theorem destroy_child_no_abort_counterexample :
    (stOnlyChild.infos.any (fun kv => decide (kv.1.getParent = some parentEx))) = true ∧
    destroy cfgEx envAllOk stOnlyChild parentEx =
      (stOnlyChild, DestroyOutcome.ret false, []) := by
  decide

/-- C6 amended: if containerId is itself registered and some registered
entry's id has containerId as parent, destroy aborts through the fatal
CHECK (distinct from the ordinary failure channel), leaves the map
unchanged and invokes no Backend::destroy; when containerId is not
registered, destroy instead returns false before the child check. -/
theorem destroy_child_abort (cfg : Config) (env : Env) (st : PState) (cid : ContainerId)
    (hreg : (alookup st.infos cid).isSome = true)
    (hchild : hasChildOf st.infos cid = true) :
    destroy cfg env st cid = (st, DestroyOutcome.abortChild, []) :=
  destroy_abort_of_child cfg env st cid hreg hchild

/-- A state holding the parent `parentEx` and its nested child `childEx`. -/
def stParentChild : PState := ⟨[(parentEx, ⟨[(0, [4])]⟩), (childEx, ⟨[]⟩)], 0⟩

/-- C6 amended, witness: destroying the registered `parentEx` while
`childEx` is still registered aborts with no state change and no calls. -/
theorem destroy_child_abort_witness :
    destroy cfgEx envAllOk stParentChild parentEx =
      (stParentChild, DestroyOutcome.abortChild, []) :=
  destroy_child_abort cfgEx envAllOk stParentChild parentEx (by decide) (by decide)

/-- The on-disk layout whose second container's rootfs listing fails. -/
def diskListingFails : List DiskEntry :=
  [⟨⟨2, []⟩, some [(0, [7])]⟩, ⟨⟨3, []⟩, none⟩]

/-- The on-disk layout whose second container has a backend
subdirectory (9) outside the configured backend set. -/
def diskBadBackend : List DiskEntry :=
  [⟨⟨2, []⟩, some [(0, [7])]⟩, ⟨⟨3, []⟩, some [(9, [8])]⟩]

/-- C10: recover is not atomic on failure — on a layout whose second
container's rootfs listing fails, and on a layout whose second container
has a backend subdirectory outside the configured set, recover returns
failure with the first container's Info already registered and still
registered (and in the second case the failing container unregistered). -/
theorem recover_partial_registration_on_failure :
    ((recover cfgEx envAllOk ⟨[], 0⟩ (some diskListingFails) []).2.1 =
        RecoverOutcome.scanFailed ∧
      alookup (recover cfgEx envAllOk ⟨[], 0⟩ (some diskListingFails) []).1.infos ⟨2, []⟩ =
        some ⟨[(0, [7])]⟩) ∧
    ((recover cfgEx envAllOk ⟨[], 0⟩ (some diskBadBackend) []).2.1 =
        RecoverOutcome.scanFailed ∧
      alookup (recover cfgEx envAllOk ⟨[], 0⟩ (some diskBadBackend) []).1.infos ⟨2, []⟩ =
        some ⟨[(0, [7])]⟩ ∧
      alookup (recover cfgEx envAllOk ⟨[], 0⟩ (some diskBadBackend) []).1.infos ⟨3, []⟩ =
        none) := by
  decide

/-- C3: for every provision call whose Store.get succeeds, the fresh
RootfsId is inserted into the container's Info entry (creating it if
absent) strictly before Backend.provision is invoked — the registration
event precedes the backend-provision event in the call's trace — and if
Backend.provision fails, provision returns failure while the RootfsId
remains registered in the map (no rollback). -/
theorem provision_registers_reservation_first (cfg : Config) (st : PState)
    (cid : ContainerId) (image : Image) (imageInfo : ImageInfo)
    (rootfsId : Nat) (backendOk : Bool) (fs : FS)
    (hstore : image.ty ∈ cfg.storeTypes)
    (hbackend : cfg.imageProvisionerBackend ∈ cfg.backendNames) :
    (provision cfg st cid image (some imageInfo) rootfsId backendOk fs).2.2.2 =
      [Event.storeGet image,
       Event.registered cid cfg.imageProvisionerBackend rootfsId,
       Event.backendProvision imageInfo.layers
         ⟨cid, cfg.imageProvisionerBackend, rootfsId⟩] ∧
    (∃ rids,
      ((alookup (provision cfg st cid image (some imageInfo) rootfsId backendOk fs).1.infos
          cid).bind
        (fun info => alookup info.rootfses cfg.imageProvisionerBackend)) = some rids ∧
      rootfsId ∈ rids) ∧
    (backendOk = false →
      (provision cfg st cid image (some imageInfo) rootfsId backendOk fs).2.2.1 =
        ProvisionResult.failureBackendProvision) := by
  unfold provision _provision
  simp only [hstore, if_pos, hbackend]
  refine ⟨?_, ?_, ?_⟩
  · cases backendOk <;> simp
  · cases backendOk <;> simpa using alookup_registerRootfs_self st cid
      cfg.imageProvisionerBackend rootfsId
  · intro hb; subst hb; simp

/-- C3, witness: at a concrete failing Backend.provision the trace has
the registration before the backend call, the reservation survives, and
the result is the backend failure. -/
theorem provision_registers_reservation_first_witness :
    (provision cfgEx ⟨[], 0⟩ cidEx ⟨ImageType.docker, 9⟩
        (some ⟨[1, 2], some 3, none⟩) 7 false []).2.2.2 =
      [Event.storeGet ⟨ImageType.docker, 9⟩,
       Event.registered cidEx cfgEx.imageProvisionerBackend 7,
       Event.backendProvision [1, 2] ⟨cidEx, cfgEx.imageProvisionerBackend, 7⟩] ∧
    (∃ rids,
      ((alookup (provision cfgEx ⟨[], 0⟩ cidEx ⟨ImageType.docker, 9⟩
          (some ⟨[1, 2], some 3, none⟩) 7 false []).1.infos cidEx).bind
        (fun info => alookup info.rootfses cfgEx.imageProvisionerBackend)) = some rids ∧
      7 ∈ rids) ∧
    (false = false →
      (provision cfgEx ⟨[], 0⟩ cidEx ⟨ImageType.docker, 9⟩
          (some ⟨[1, 2], some 3, none⟩) 7 false []).2.2.1 =
        ProvisionResult.failureBackendProvision) :=
  provision_registers_reservation_first cfgEx ⟨[], 0⟩ cidEx ⟨ImageType.docker, 9⟩
    ⟨[1, 2], some 3, none⟩ 7 false [] (by decide) (by decide)

/-- C7: whenever the backend-level destroys of a destroy call all
succeed but the final removal of the container's top-level directory
fails, destroy still resolves to true, the failure is not propagated,
and the persistent remove_container_errors counter increments by one. -/
theorem destroy_rmdir_failure_nonfatal (cfg : Config) (env : Env) (st : PState)
    (cid : ContainerId) (info : Info)
    (hreg : alookup st.infos cid = some info)
    (hnochild : hasChildOf st.infos cid = false)
    (hbackends : info.rootfses.all (fun br => decide (br.1 ∈ cfg.backendNames)) = true)
    (hok : info.rootfses.all
        (fun br => br.2.all (fun rid => env.backendDestroyOk cid br.1 rid)) = true)
    (hrm : env.rmdirContainerDirOk cid = false) :
    (destroy cfg env st cid).2.1 = DestroyOutcome.ret true ∧
    (destroy cfg env st cid).1.removeContainerErrors = st.removeContainerErrors + 1 := by
  have hb : ∀ br ∈ info.rootfses, br.1 ∈ cfg.backendNames := by
    intro br hbr
    have := List.all_eq_true.mp hbackends br hbr
    exact of_decide_eq_true this
  have hall : (allBackendCalls cid info.rootfses).all
      (fun c => env.backendDestroyOk c.1 c.2.1 c.2.2) = true := by
    rw [allBackendCalls_all]; exact hok
  rw [destroy_eq_of_ok cfg env st cid info hreg hnochild hb]
  simp [hall, _destroy, hrm]

/-- A registered container with one rootfs under backend 0, used as the
destroy target of the C7 and C8 witnesses. -/
def stOneRootfs : PState := ⟨[(cidEx, ⟨[(0, [7])]⟩)], 3⟩

/-- C7, witness: at a concrete state with a failing directory removal,
destroy returns true and bumps the counter from 3 to 4. -/
theorem destroy_rmdir_failure_nonfatal_witness :
    (destroy cfgEx envRmFail stOneRootfs cidEx).2.1 = DestroyOutcome.ret true ∧
    (destroy cfgEx envRmFail stOneRootfs cidEx).1.removeContainerErrors =
      stOneRootfs.removeContainerErrors + 1 :=
  destroy_rmdir_failure_nonfatal cfgEx envRmFail stOneRootfs cidEx ⟨[(0, [7])]⟩
    (by decide) (by decide) (by decide) (by decide) (by decide)

/-- C8: for a registered container with no registered child, all of
whose backends are configured and whose backend destroys succeed, the
first of two serialized destroy calls erases the entry (before awaiting
any backend cleanup), issues the backend-level cleanup calls and
resolves to true; the second call, running on the state the first left
after its bookkeeping, finds the entry absent and returns false with no
state change and no backend calls. -/
theorem destroy_concurrent_pair (cfg : Config) (env : Env) (st : PState)
    (cid : ContainerId) (info : Info)
    (hreg : alookup st.infos cid = some info)
    (hnochild : hasChildOf st.infos cid = false)
    (hbackends : info.rootfses.all (fun br => decide (br.1 ∈ cfg.backendNames)) = true)
    (hok : info.rootfses.all
        (fun br => br.2.all (fun rid => env.backendDestroyOk cid br.1 rid)) = true) :
    (destroy cfg env st cid).2.1 = DestroyOutcome.ret true ∧
    (destroy cfg env st cid).2.2 = allBackendCalls cid info.rootfses ∧
    alookup (destroy cfg env st cid).1.infos cid = none ∧
    destroy cfg env (destroy cfg env st cid).1 cid =
      ((destroy cfg env st cid).1, DestroyOutcome.ret false, []) := by
  have hb : ∀ br ∈ info.rootfses, br.1 ∈ cfg.backendNames := by
    intro br hbr
    exact of_decide_eq_true (List.all_eq_true.mp hbackends br hbr)
  have hall : (allBackendCalls cid info.rootfses).all
      (fun c => env.backendDestroyOk c.1 c.2.1 c.2.2) = true := by
    rw [allBackendCalls_all]; exact hok
  have hd := destroy_eq_of_ok cfg env st cid info hreg hnochild hb
  rw [if_pos hall] at hd
  have hinfos : (destroy cfg env st cid).1.infos = aerase st.infos cid := by
    rw [hd]
    unfold _destroy
    by_cases hrm : env.rmdirContainerDirOk cid = true <;> simp [hrm]
  have hnone : alookup (destroy cfg env st cid).1.infos cid = none := by
    rw [hinfos, alookup_aerase]; simp
  exact ⟨by rw [hd], by rw [hd], hnone,
    destroy_not_registered cfg env (destroy cfg env st cid).1 cid hnone⟩

/-- C8, witness: at the concrete one-rootfs state the first destroy
resolves true with the single backend call and the second returns false
with no effect. -/
theorem destroy_concurrent_pair_witness :
    (destroy cfgEx envAllOk stOneRootfs cidEx).2.1 = DestroyOutcome.ret true ∧
    (destroy cfgEx envAllOk stOneRootfs cidEx).2.2 =
      allBackendCalls cidEx (Info.mk [(0, [7])]).rootfses ∧
    alookup (destroy cfgEx envAllOk stOneRootfs cidEx).1.infos cidEx = none ∧
    destroy cfgEx envAllOk (destroy cfgEx envAllOk stOneRootfs cidEx).1 cidEx =
      ((destroy cfgEx envAllOk stOneRootfs cidEx).1, DestroyOutcome.ret false, []) :=
  destroy_concurrent_pair cfgEx envAllOk stOneRootfs cidEx ⟨[(0, [7])]⟩
    (by decide) (by decide) (by decide) (by decide)

/-! ### The registered-backends invariant and reachability (C9) -/

/-- Every backend name keyed in any registered Info is a configured
backend. -/
def backendsRegistered (cfg : Config) (m : List (ContainerId × Info)) : Prop :=
  ∀ cid info, alookup m cid = some info → ∀ br ∈ info.rootfses, br.1 ∈ cfg.backendNames

/-- States reachable from the freshly created provisioner through any
sequence of recover, provision and destroy calls, with arbitrary
external-call results. -/
inductive Reachable (cfg : Config) : PState → Prop where
  | init : Reachable cfg ⟨[], 0⟩
  | recoverStep (env : Env) (st : PState) (disk : Option (List DiskEntry))
      (known : List ContainerId) :
      Reachable cfg st → Reachable cfg (recover cfg env st disk known).1
  | provisionStep (st : PState) (cid : ContainerId) (image : Image)
      (storeGetResult : Option ImageInfo) (rootfsId : Nat) (backendOk : Bool) (fs : FS) :
      Reachable cfg st →
      Reachable cfg (provision cfg st cid image storeGetResult rootfsId backendOk fs).1
  | destroyStep (env : Env) (st : PState) (cid : ContainerId) :
      Reachable cfg st → Reachable cfg (destroy cfg env st cid).1

theorem backendsRegistered_aput (cfg : Config) (m : List (ContainerId × Info))
    (cid : ContainerId) (info : Info) (h : backendsRegistered cfg m)
    (hi : ∀ br ∈ info.rootfses, br.1 ∈ cfg.backendNames) :
    backendsRegistered cfg (aput m cid info) := by
  intro c i hl br hbr
  rw [alookup_aput] at hl
  by_cases hc : cid = c
  · rw [if_pos hc] at hl
    cases hl
    exact hi br hbr
  · rw [if_neg hc] at hl
    exact h c i hl br hbr

theorem backendsRegistered_aerase (cfg : Config) (m : List (ContainerId × Info))
    (cid : ContainerId) (h : backendsRegistered cfg m) :
    backendsRegistered cfg (aerase m cid) := by
  intro c i hl br hbr
  rw [alookup_aerase] at hl
  by_cases hc : cid = c
  · rw [if_pos hc] at hl; cases hl
  · rw [if_neg hc] at hl
    exact h c i hl br hbr

theorem _destroy_infos (env : Env) (st : PState) (cid : ContainerId) :
    ((_destroy env st cid).1).infos = st.infos := by
  unfold _destroy
  split <;> rfl

theorem destroy_infos_cases (cfg : Config) (env : Env) (st : PState) (cid : ContainerId) :
    (destroy cfg env st cid).1.infos = st.infos ∨
    (destroy cfg env st cid).1.infos = aerase st.infos cid := by
  unfold destroy
  cases h : alookup st.infos cid with
  | none => exact Or.inl rfl
  | some info =>
      dsimp only
      by_cases hc : hasChildOf st.infos cid = true
      · rw [if_pos hc]; exact Or.inl rfl
      · rw [if_neg hc]
        right
        dsimp only
        split
        · split
          · exact _destroy_infos env _ cid
          · rfl
        · rfl

theorem backendsRegistered_destroy (cfg : Config) (env : Env) (st : PState)
    (cid : ContainerId) (h : backendsRegistered cfg st.infos) :
    backendsRegistered cfg (destroy cfg env st cid).1.infos := by
  rcases destroy_infos_cases cfg env st cid with he | he <;> rw [he]
  · exact h
  · exact backendsRegistered_aerase cfg _ _ h

theorem buildInfo_backends (cfg : Config) :
    ∀ (l : List (Nat × List Nat)) (i : Info), buildInfo cfg l = some i →
      ∀ br ∈ i.rootfses, br.1 ∈ cfg.backendNames := by
  intro l
  induction l with
  | nil =>
      intro i h br hbr
      unfold buildInfo at h
      cases h
      exact absurd hbr (List.not_mem_nil br)
  | cons b rest ih =>
      obtain ⟨backend, rids⟩ := b
      intro i h br hbr
      unfold buildInfo at h
      by_cases hb : backend ∈ cfg.backendNames
      · rw [if_pos hb] at h
        cases hr : buildInfo cfg rest with
        | none => rw [hr] at h; simp at h
        | some i0 =>
            rw [hr] at h
            injection h with h2
            subst h2
            rcases List.mem_cons.mp hbr with h1 | h1
            · rw [h1]; exact hb
            · exact ih i0 hr br h1
      · rw [if_neg hb] at h; simp at h

theorem backendsRegistered_scan (cfg : Config) (known : List ContainerId) :
    ∀ (entries : List DiskEntry) (st : PState), backendsRegistered cfg st.infos →
      backendsRegistered cfg (scanContainers cfg known st entries).1.infos := by
  intro entries
  induction entries with
  | nil => intro st h; exact h
  | cons e rest ih =>
      intro st h
      unfold scanContainers
      cases hl : e.listing with
      | none => exact h
      | some listing =>
          dsimp only
          cases hb : buildInfo cfg listing with
          | none => simp only [hb]; exact h
          | some info =>
              simp only [hb]
              exact ih { st with infos := aput st.infos e.containerId info }
                (backendsRegistered_aput cfg st.infos e.containerId info h
                  (buildInfo_backends cfg listing info hb))

theorem backendsRegistered_destroyAll (cfg : Config) (env : Env) :
    ∀ (ids : List ContainerId) (st : PState), backendsRegistered cfg st.infos →
      backendsRegistered cfg (destroyAll cfg env st ids).1.infos := by
  intro ids
  induction ids with
  | nil => intro st h; exact h
  | cons c cs ih =>
      intro st h
      unfold destroyAll
      dsimp only
      have hb : backendsRegistered cfg (destroy cfg env st c).1.infos :=
        backendsRegistered_destroy cfg env st c h
      cases hout : (destroy cfg env st c).2.1 with
      | abortChild => simp only [hout]; exact hb
      | ret b => simp only [hout]; exact ih (destroy cfg env st c).1 hb
      | unknownBackend => simp only [hout]; exact ih (destroy cfg env st c).1 hb
      | cleanupFailed => simp only [hout]; exact ih (destroy cfg env st c).1 hb

theorem backendsRegistered_recover (cfg : Config) (env : Env) (st : PState)
    (disk : Option (List DiskEntry)) (known : List ContainerId)
    (h : backendsRegistered cfg st.infos) :
    backendsRegistered cfg (recover cfg env st disk known).1.infos := by
  unfold recover
  cases disk with
  | none => exact h
  | some entries =>
      dsimp only
      have hs := backendsRegistered_scan cfg known entries st h
      cases hres : (scanContainers cfg known st entries).2 with
      | none => simp only [hres]; exact hs
      | some unknownIds =>
          simp only [hres]
          have hda := backendsRegistered_destroyAll cfg env unknownIds
            (scanContainers cfg known st entries).1 hs
          cases hores :
              (destroyAll cfg env (scanContainers cfg known st entries).1 unknownIds).2.1 with
          | none => simp only [hores]; exact hda
          | some ok => simp only [hores]; exact hda

theorem backendsRegistered_provision (cfg : Config) (st : PState) (cid : ContainerId)
    (backend rootfsId : Nat) (hbk : backend ∈ cfg.backendNames)
    (h : backendsRegistered cfg st.infos) :
    backendsRegistered cfg (registerRootfs st cid backend rootfsId).infos := by
  unfold registerRootfs
  have h1 : ∀ (infos1 : List (ContainerId × Info)), backendsRegistered cfg infos1 →
      backendsRegistered cfg
        (match alookup infos1 cid with
          | some info =>
              ({ st with infos := aput infos1 cid (insertRootfs info backend rootfsId) } :
                PState)
          | none => { st with infos := infos1 }).infos := by
    intro infos1 hinv
    cases hl : alookup infos1 cid with
    | none => exact hinv
    | some info0 =>
        refine backendsRegistered_aput cfg infos1 cid _ hinv ?_
        intro br hbr
        rcases insertRootfs_backend_cases info0 backend rootfsId br hbr with h2 | h2
        · rw [h2]; exact hbk
        · exact hinv cid info0 hl br h2
  by_cases hs : (alookup st.infos cid).isSome = true
  · simp only [hs, if_true]
    exact h1 st.infos h
  · simp only [hs, Bool.false_eq_true, if_false]
    refine h1 (aput st.infos cid ⟨[]⟩) ?_
    exact backendsRegistered_aput cfg st.infos cid ⟨[]⟩ h (by intro br hbr; simp at hbr)

theorem backendsRegistered_provision_full (cfg : Config) (st : PState)
    (cid : ContainerId) (image : Image) (storeGetResult : Option ImageInfo)
    (rootfsId : Nat) (backendOk : Bool) (fs : FS)
    (h : backendsRegistered cfg st.infos) :
    backendsRegistered cfg
      (provision cfg st cid image storeGetResult rootfsId backendOk fs).1.infos := by
  unfold provision
  by_cases hst : image.ty ∈ cfg.storeTypes
  · rw [if_pos hst]
    cases storeGetResult with
    | none => exact h
    | some imageInfo =>
        dsimp only
        unfold _provision
        by_cases hbk : cfg.imageProvisionerBackend ∈ cfg.backendNames
        · rw [if_pos hbk]
          cases backendOk <;> dsimp only <;>
            exact backendsRegistered_provision cfg st cid
              cfg.imageProvisionerBackend rootfsId hbk h
        · rw [if_neg hbk]; exact h
  · rw [if_neg hst]; exact h

theorem reachable_backendsRegistered (cfg : Config) (st : PState)
    (h : Reachable cfg st) : backendsRegistered cfg st.infos := by
  induction h with
  | init =>
      intro cid info hl
      simp [alookup] at hl
  | recoverStep env st disk known _ ih =>
      exact backendsRegistered_recover cfg env st disk known ih
  | provisionStep st cid image storeGetResult rootfsId backendOk fs _ ih =>
      exact backendsRegistered_provision_full cfg st cid image storeGetResult
        rootfsId backendOk fs ih
  | destroyStep env st cid _ ih =>
      exact backendsRegistered_destroy cfg env st cid ih

/-- C9: in every state reachable through create, recover, provision and
destroy, every backend name keyed in a registered Info is a configured
backend, and consequently the 'Unknown backend' failure branch of
destroy can never be taken. -/
theorem destroy_unknown_backend_unreachable (cfg : Config) (env : Env) (st : PState)
    (cid : ContainerId) (h : Reachable cfg st) :
    backendsRegistered cfg st.infos ∧
    (destroy cfg env st cid).2.1 ≠ DestroyOutcome.unknownBackend := by
  have hinv := reachable_backendsRegistered cfg st h
  refine ⟨hinv, ?_⟩
  cases hreg : alookup st.infos cid with
  | none =>
      rw [destroy_not_registered cfg env st cid hreg]
      simp
  | some info =>
      by_cases hc : hasChildOf st.infos cid = true
      · rw [destroy_abort_of_child cfg env st cid (by rw [hreg]; rfl) hc]
        simp
      · have hc' : hasChildOf st.infos cid = false := by
          revert hc; cases hasChildOf st.infos cid <;> simp
        rw [destroy_eq_of_ok cfg env st cid info hreg hc' (hinv cid info hreg)]
        split <;> simp

/-- C9, witness: the invariant and the unreachability at the initial
state, which is reachable by construction. -/
theorem destroy_unknown_backend_unreachable_witness :
    backendsRegistered cfgEx (PState.mk [] 0).infos ∧
    (destroy cfgEx envAllOk ⟨[], 0⟩ cidEx).2.1 ≠ DestroyOutcome.unknownBackend :=
  destroy_unknown_backend_unreachable cfgEx envAllOk ⟨[], 0⟩ cidEx Reachable.init

/-! ### Recovery characterization (C1, C4) -/

/-- The scan step succeeds on this disk entry: the rootfs listing is
available and every backend subdirectory is a configured backend. -/
def entryOk (cfg : Config) (e : DiskEntry) : Bool :=
  match e.listing with
  | some l => (buildInfo cfg l).isSome
  | none => false

/-- The on-disk containers absent from the known set, in scan order. -/
def orphanEntries (entries : List DiskEntry) (known : List ContainerId) : List DiskEntry :=
  entries.filter (fun e => decide (e.containerId ∉ known))

def orphanIds (entries : List DiskEntry) (known : List ContainerId) : List ContainerId :=
  (orphanEntries entries known).map (fun e => e.containerId)

/-- All backend-level destroys of this container's recorded rootfses
succeed. -/
def entryCleanupOk (env : Env) (e : DiskEntry) : Bool :=
  (e.listing.getD []).all
    (fun br => br.2.all (fun rid => env.backendDestroyOk e.containerId br.1 rid))

/-- All backend-level destroys succeed for the Info registered under `c`. -/
def cleanupOkAt (env : Env) (m : List (ContainerId × Info)) (c : ContainerId) : Bool :=
  match alookup m c with
  | some info => info.rootfses.all
      (fun br => br.2.all (fun rid => env.backendDestroyOk c br.1 rid))
  | none => true

theorem buildInfo_eq_some (cfg : Config) :
    ∀ (l : List (Nat × List Nat)) (i : Info), buildInfo cfg l = some i → i = ⟨l⟩ := by
  intro l
  induction l with
  | nil =>
      intro i h
      unfold buildInfo at h
      cases h
      rfl
  | cons b rest ih =>
      obtain ⟨backend, rids⟩ := b
      intro i h
      unfold buildInfo at h
      by_cases hb : backend ∈ cfg.backendNames
      · rw [if_pos hb] at h
        cases hr : buildInfo cfg rest with
        | none => rw [hr] at h; simp at h
        | some i0 =>
            rw [hr] at h
            injection h with h2
            subst h2
            rw [ih i0 hr]
      · rw [if_neg hb] at h; simp at h

theorem buildInfo_of_entryOk (cfg : Config) (e : DiskEntry) (h : entryOk cfg e = true) :
    ∃ l, e.listing = some l ∧ buildInfo cfg l = some ⟨l⟩ := by
  unfold entryOk at h
  cases hl : e.listing with
  | none => rw [hl] at h; simp at h
  | some l =>
      rw [hl] at h
      dsimp only at h
      refine ⟨l, rfl, ?_⟩
      cases hb : buildInfo cfg l with
      | none => rw [hb] at h; simp at h
      | some i => rw [buildInfo_eq_some cfg l i hb]

theorem list_all_congr {α : Type} (p q : α → Bool) (l : List α)
    (h : ∀ a ∈ l, p a = q a) : l.all p = l.all q := by
  induction l with
  | nil => rfl
  | cons a as ih =>
      simp only [List.all_cons]
      rw [h a (List.mem_cons_self a as),
        ih (fun a ha => h a (List.mem_cons_of_mem _ ha))]

theorem alookup_map_entries {β : Type} (val : DiskEntry → β) :
    ∀ (entries : List DiskEntry) (c : ContainerId),
      alookup (entries.map (fun e => (e.containerId, val e))) c =
        (entries.find? (fun e => decide (e.containerId = c))).map val := by
  intro entries
  induction entries with
  | nil => intro c; rfl
  | cons e rest ih =>
      intro c
      simp only [List.map_cons, List.find?]
      by_cases hc : e.containerId = c
      · simp [alookup, hc]
      · simp only [alookup, hc, if_false, decide_eq_true_eq]
        rw [ih c]
        simp [hc]

theorem find?_self_of_nodup :
    ∀ (entries : List DiskEntry),
      (entries.map (fun e => e.containerId)).Nodup →
      ∀ e ∈ entries,
        entries.find? (fun x => decide (x.containerId = e.containerId)) = some e := by
  intro entries
  induction entries with
  | nil => intro _ e he; exact absurd he (List.not_mem_nil e)
  | cons x rest ih =>
      intro hnodup e he
      have hx : x.containerId ∉ rest.map (fun e => e.containerId) :=
        (List.nodup_cons.mp (by simpa using hnodup)).1
      rcases List.mem_cons.mp he with rfl | he'
      · simp [List.find?]
      · have hne : ¬ x.containerId = e.containerId := by
          intro hcontra
          exact hx (hcontra ▸ List.mem_map_of_mem (fun e => e.containerId) he')
        have hdec : decide (x.containerId = e.containerId) = false := decide_eq_false hne
        simp only [List.find?, hdec]
        exact ih (List.nodup_cons.mp (by simpa using hnodup)).2 e he'

theorem alookup_foldl_aerase {α β : Type} [DecidableEq α] :
    ∀ (l : List α) (m : List (α × β)) (a : α),
      alookup (l.foldl aerase m) a = if a ∈ l then none else alookup m a := by
  intro l
  induction l with
  | nil => intro m a; simp
  | cons c cs ih =>
      intro m a
      rw [List.foldl_cons, ih]
      by_cases hc : a ∈ cs
      · simp [hc]
      · rw [if_neg hc, alookup_aerase]
        by_cases h2 : c = a
        · subst h2; simp
        · have : ¬ a ∈ c :: cs := by
            intro hmem
            rcases List.mem_cons.mp hmem with h3 | h3
            · exact h2 h3.symm
            · exact hc h3
          simp [h2, this]

theorem mem_orphanIds (entries : List DiskEntry) (known : List ContainerId)
    (c : ContainerId) :
    c ∈ orphanIds entries known ↔
      ∃ e ∈ entries, e.containerId = c ∧ c ∉ known := by
  unfold orphanIds orphanEntries
  constructor
  · intro h
    obtain ⟨e, he, hc⟩ := List.mem_map.mp h
    have hf := List.mem_filter.mp he
    refine ⟨e, hf.1, hc, ?_⟩
    have := of_decide_eq_true hf.2
    exact hc ▸ this
  · intro ⟨e, he, hc, hk⟩
    refine List.mem_map.mpr ⟨e, List.mem_filter.mpr ⟨he, ?_⟩, hc⟩
    exact decide_eq_true (hc ▸ hk)

theorem scanContainers_ok (cfg : Config) (known : List ContainerId) :
    ∀ (entries : List DiskEntry) (st : PState),
      (∀ e ∈ entries, entryOk cfg e = true) →
      (∀ e ∈ entries, alookup st.infos e.containerId = none) →
      (entries.map (fun e => e.containerId)).Nodup →
      scanContainers cfg known st entries =
        ({ st with infos := st.infos ++
            entries.map (fun e => (e.containerId, Info.mk (e.listing.getD []))) },
         some (orphanIds entries known)) := by
  intro entries
  induction entries with
  | nil =>
      intro st _ _ _
      simp [scanContainers, orphanIds, orphanEntries]
  | cons e rest ih =>
      intro st hok hfresh hnodup
      obtain ⟨l, hl, hbuild⟩ := buildInfo_of_entryOk cfg e (hok e (List.mem_cons_self e rest))
      unfold scanContainers
      rw [hl]
      dsimp only
      rw [hbuild]
      dsimp only
      have hfre : alookup st.infos e.containerId = none := hfresh e (List.mem_cons_self e rest)
      rw [aput_fresh st.infos e.containerId ⟨l⟩ hfre]
      have hxid : e.containerId ∉ rest.map (fun x => x.containerId) :=
        (List.nodup_cons.mp (by simpa using hnodup)).1
      have hok' : ∀ x ∈ rest, entryOk cfg x = true :=
        fun x hx => hok x (List.mem_cons_of_mem e hx)
      have hfresh' : ∀ x ∈ rest,
          alookup (st.infos ++ [(e.containerId, Info.mk l)]) x.containerId = none := by
        intro x hx
        rw [alookup_append_left st.infos _ _ (hfresh x (List.mem_cons_of_mem e hx))]
        have hne : ¬ e.containerId = x.containerId := by
          intro hcontra
          exact hxid (hcontra ▸ List.mem_map_of_mem (fun x => x.containerId) hx)
        simp [alookup, hne]
      have hnodup' : (rest.map (fun x => x.containerId)).Nodup :=
        (List.nodup_cons.mp (by simpa using hnodup)).2
      rw [ih { st with infos := st.infos ++ [(e.containerId, Info.mk l)] } hok' hfresh' hnodup']
      have horph : Option.map
          (fun us => if e.containerId ∈ known then us else e.containerId :: us)
          (some (orphanIds rest known)) = some (orphanIds (e :: rest) known) := by
        unfold orphanIds orphanEntries
        rw [List.filter_cons]
        by_cases hk : e.containerId ∈ known
        · simp [hk]
        · simp [hk]
      rw [horph]
      simp [hl, List.append_assoc]

theorem destroyAll_ok (cfg : Config) (env : Env) :
    ∀ (ids : List ContainerId) (st : PState),
      (∀ c ∈ ids, ∃ info, alookup st.infos c = some info ∧
          ∀ br ∈ info.rootfses, br.1 ∈ cfg.backendNames) →
      (∀ kv ∈ st.infos, ∀ c ∈ ids, kv.1.getParent ≠ some c) →
      ids.Nodup →
      ∃ k, destroyAll cfg env st ids =
        (⟨ids.foldl aerase st.infos, k⟩,
         some (ids.all (cleanupOkAt env st.infos)), ids) := by
  intro ids
  induction ids with
  | nil =>
      intro st _ _ _
      exact ⟨st.removeContainerErrors, by simp [destroyAll]⟩
  | cons c cs ih =>
      intro st hmem hpar hnodup
      obtain ⟨info, hreg, hbk⟩ := hmem c (List.mem_cons_self c cs)
      have hnochild : hasChildOf st.infos c = false :=
        hasChildOf_eq_false (fun kv hkv => hpar kv hkv c (List.mem_cons_self c cs))
      have hd := destroy_eq_of_ok cfg env st c info hreg hnochild hbk
      have hcnotcs : c ∉ cs := (List.nodup_cons.mp hnodup).1
      have hmem' : ∀ x ∈ cs, ∃ i, alookup (aerase st.infos c) x = some i ∧
          ∀ br ∈ i.rootfses, br.1 ∈ cfg.backendNames := by
        intro x hx
        obtain ⟨i, hl', hb'⟩ := hmem x (List.mem_cons_of_mem c hx)
        refine ⟨i, ?_, hb'⟩
        rw [alookup_aerase]
        have hne : ¬ c = x := fun h => hcnotcs (h ▸ hx)
        rw [if_neg hne]
        exact hl'
      have hpar' : ∀ kv ∈ aerase st.infos c, ∀ x ∈ cs, kv.1.getParent ≠ some x :=
        fun kv hkv x hx => hpar kv (mem_of_mem_aerase hkv) x (List.mem_cons_of_mem c hx)
      have hnodup' := (List.nodup_cons.mp hnodup).2
      have hallcongr : cs.all (cleanupOkAt env (aerase st.infos c)) =
          cs.all (cleanupOkAt env st.infos) := by
        refine list_all_congr _ _ cs ?_
        intro x hx
        unfold cleanupOkAt
        rw [alookup_aerase]
        have hne : ¬ c = x := fun h => hcnotcs (h ▸ hx)
        rw [if_neg hne]
      have hhead : cleanupOkAt env st.infos c =
          (allBackendCalls c info.rootfses).all
            (fun x => env.backendDestroyOk x.1 x.2.1 x.2.2) := by
        unfold cleanupOkAt
        rw [hreg, allBackendCalls_all]
      unfold destroyAll
      rw [hd]
      by_cases hall : (allBackendCalls c info.rootfses).all
          (fun x => env.backendDestroyOk x.1 x.2.1 x.2.2) = true
      · rw [if_pos hall]
        dsimp only
        obtain ⟨k', hrec⟩ := ih
          ((_destroy env ⟨aerase st.infos c, st.removeContainerErrors⟩ c).1)
          (by rw [_destroy_infos]; exact hmem')
          (by rw [_destroy_infos]; exact hpar') hnodup'
        rw [_destroy_infos] at hrec
        refine ⟨k', ?_⟩
        rw [hrec]
        simp only [destroyFutureOk, Option.map, List.foldl_cons, List.all_cons,
          hhead, hall, Bool.true_and, hallcongr]
      · have hfalse : (allBackendCalls c info.rootfses).all
            (fun x => env.backendDestroyOk x.1 x.2.1 x.2.2) = false := by
          revert hall
          cases (allBackendCalls c info.rootfses).all
            (fun x => env.backendDestroyOk x.1 x.2.1 x.2.2) <;> simp
        rw [if_neg hall]
        dsimp only
        obtain ⟨k', hrec⟩ := ih ⟨aerase st.infos c, st.removeContainerErrors⟩
          hmem' hpar' hnodup'
        refine ⟨k', ?_⟩
        rw [hrec]
        simp only [destroyFutureOk, Option.map, List.foldl_cons, List.all_cons,
          hhead, hfalse, Bool.false_and]

theorem recover_ok (cfg : Config) (env : Env) (st : PState)
    (entries : List DiskEntry) (known : List ContainerId)
    (hinit : st.infos = [])
    (hok : entries.all (entryOk cfg) = true)
    (hnodup : (entries.map (fun e => e.containerId)).Nodup)
    (hpar : entries.all (fun e => entries.all (fun o =>
        decide (o.containerId ∈ known) ||
        decide (e.containerId.getParent ≠ some o.containerId))) = true) :
    ∃ k, recover cfg env st (some entries) known =
      (⟨(orphanIds entries known).foldl aerase
          (entries.map (fun e => (e.containerId, Info.mk (e.listing.getD [])))), k⟩,
       RecoverOutcome.done ((orphanEntries entries known).all (entryCleanupOk env) &&
         env.storeRecoverOk.all (fun b => b)),
       orphanIds entries known) := by
  have hokP : ∀ e ∈ entries, entryOk cfg e = true := List.all_eq_true.mp hok
  have hfresh : ∀ e ∈ entries, alookup st.infos e.containerId = none := by
    intro e _
    rw [hinit]
    rfl
  have hscan := scanContainers_ok cfg known entries st hokP hfresh hnodup
  unfold recover
  dsimp only
  rw [hscan]
  dsimp only
  set infomap := entries.map (fun e => (e.containerId, Info.mk (e.listing.getD [])))
    with hinfomap
  have hmem : ∀ c ∈ orphanIds entries known, ∃ i,
      alookup (st.infos ++ infomap) c = some i ∧
      ∀ br ∈ i.rootfses, br.1 ∈ cfg.backendNames := by
    intro c hc
    obtain ⟨e, he, hcid, _⟩ := (mem_orphanIds entries known c).mp hc
    obtain ⟨l, hl, hbuild⟩ := buildInfo_of_entryOk cfg e (hokP e he)
    refine ⟨⟨e.listing.getD []⟩, ?_, ?_⟩
    · rw [hinit, List.nil_append, hinfomap, alookup_map_entries]
      rw [← hcid, find?_self_of_nodup entries hnodup e he]
      rfl
    · intro br hbr
      refine buildInfo_backends cfg l ⟨l⟩ hbuild br ?_
      have : (Info.mk (e.listing.getD [])).rootfses = l := by rw [hl]; rfl
      rw [this] at hbr
      exact hbr
  have hpar2 : ∀ kv ∈ st.infos ++ infomap, ∀ c ∈ orphanIds entries known,
      kv.1.getParent ≠ some c := by
    intro kv hkv c hc
    obtain ⟨o, ho, hcid, hk⟩ := (mem_orphanIds entries known c).mp hc
    rw [hinit, List.nil_append, hinfomap] at hkv
    obtain ⟨e, he, hkve⟩ := List.mem_map.mp hkv
    have h1 := List.all_eq_true.mp (List.all_eq_true.mp hpar e he) o ho
    rcases Bool.or_eq_true_iff.mp h1 with h2 | h2
    · exact absurd (hcid ▸ of_decide_eq_true h2) hk
    · have h3 := of_decide_eq_true h2
      rw [← hkve]
      exact hcid ▸ h3
  have hnodupO : (orphanIds entries known).Nodup := by
    unfold orphanIds orphanEntries
    have hsub : ((entries.filter (fun e => decide (e.containerId ∉ known))).map
        (fun e => e.containerId)).Sublist (entries.map (fun e => e.containerId)) :=
      (List.filter_sublist entries).map (fun e => e.containerId)
    exact List.Nodup.sublist hsub hnodup
  obtain ⟨k, hdall⟩ := destroyAll_ok cfg env (orphanIds entries known)
    { st with infos := st.infos ++ infomap } hmem hpar2 hnodupO
  rw [hdall]
  dsimp only
  refine ⟨k, ?_⟩
  have hcleanups : (orphanIds entries known).all
      (cleanupOkAt env ({ st with infos := st.infos ++ infomap } : PState).infos) =
      (orphanEntries entries known).all (entryCleanupOk env) := by
    unfold orphanIds
    rw [list_all_map]
    refine list_all_congr _ _ (orphanEntries entries known) ?_
    intro e he
    have heent : e ∈ entries := (List.mem_filter.mp he).1
    unfold cleanupOkAt entryCleanupOk
    have hlook : alookup (st.infos ++ infomap) e.containerId =
        some ⟨e.listing.getD []⟩ := by
      rw [hinit, List.nil_append, hinfomap, alookup_map_entries,
        find?_self_of_nodup entries hnodup e heent]
      rfl
    rw [hlook]
  rw [hcleanups]
  rw [hinit]
  rfl

/-- C4: for every recover whose disk scan succeeds (every rootfs listing
readable, every backend recognized, ids distinct, no scanned container's
parent among the orphans), a destroy is issued exactly for the on-disk
containers absent from knownContainerIds (in scan order, none for a
known container), and recover resolves to done(success) where success
holds iff every backend-level destroy of every orphan and every
Store::recover succeed — any single failure fails the whole recover. -/
theorem recover_destroys_exactly_orphans (cfg : Config) (env : Env) (st : PState)
    (entries : List DiskEntry) (known : List ContainerId)
    (hinit : st.infos = [])
    (hok : entries.all (entryOk cfg) = true)
    (hnodup : (entries.map (fun e => e.containerId)).Nodup)
    (hpar : entries.all (fun e => entries.all (fun o =>
        decide (o.containerId ∈ known) ||
        decide (e.containerId.getParent ≠ some o.containerId))) = true) :
    ∃ stF, recover cfg env st (some entries) known =
      (stF,
       RecoverOutcome.done ((orphanEntries entries known).all (entryCleanupOk env) &&
         env.storeRecoverOk.all (fun b => b)),
       orphanIds entries known) := by
  obtain ⟨k, h⟩ := recover_ok cfg env st entries known hinit hok hnodup hpar
  exact ⟨_, h⟩

/-- The concrete two-container disk of the C1/C4 witnesses: container 2
(known) with rootfs 7 under backend 0, container 3 (orphan) with rootfs
8 under backend 1. -/
def entriesEx : List DiskEntry :=
  [⟨⟨2, []⟩, some [(0, [7])]⟩, ⟨⟨3, []⟩, some [(1, [8])]⟩]

def knownEx : List ContainerId := [⟨2, []⟩]

/-- C4, witness: on the concrete disk with every external call
succeeding, recover destroys exactly the orphan and resolves done(true). -/
theorem recover_destroys_exactly_orphans_witness :
    ∃ stF, recover cfgEx envAllOk ⟨[], 0⟩ (some entriesEx) knownEx =
      (stF,
       RecoverOutcome.done ((orphanEntries entriesEx knownEx).all (entryCleanupOk envAllOk) &&
         envAllOk.storeRecoverOk.all (fun b => b)),
       orphanIds entriesEx knownEx) :=
  recover_destroys_exactly_orphans cfgEx envAllOk ⟨[], 0⟩ entriesEx knownEx
    rfl (by decide) (by decide) (by decide)

/-- C1: for every recover whose disk scan succeeds and which completes
successfully, the in-memory map contains exactly the on-disk containers
that are in knownContainerIds, each mapped to the backend→rootfs-ids
structure read from disk, and no entry for any container absent from
knownContainerIds (each such orphan was registered and then erased by
its destroy). -/
theorem recover_map_reflects_disk (cfg : Config) (env : Env) (st : PState)
    (entries : List DiskEntry) (known : List ContainerId) (c : ContainerId)
    (hinit : st.infos = [])
    (hok : entries.all (entryOk cfg) = true)
    (hnodup : (entries.map (fun e => e.containerId)).Nodup)
    (hpar : entries.all (fun e => entries.all (fun o =>
        decide (o.containerId ∈ known) ||
        decide (e.containerId.getParent ≠ some o.containerId))) = true)
    (_hsucc : (recover cfg env st (some entries) known).2.1 = RecoverOutcome.done true) :
    alookup (recover cfg env st (some entries) known).1.infos c =
      match entries.find? (fun e => decide (e.containerId = c)) with
      | some e => if c ∈ known then some (Info.mk (e.listing.getD [])) else none
      | none => none := by
  obtain ⟨k, h⟩ := recover_ok cfg env st entries known hinit hok hnodup hpar
  rw [h]
  dsimp only
  rw [alookup_foldl_aerase]
  by_cases hc : c ∈ orphanIds entries known
  · rw [if_pos hc]
    obtain ⟨e, he, hcid, hk⟩ := (mem_orphanIds entries known c).mp hc
    cases hf : entries.find? (fun x => decide (x.containerId = c)) with
    | none => rfl
    | some x => simp [hk]
  · rw [if_neg hc]
    rw [alookup_map_entries]
    cases hf : entries.find? (fun x => decide (x.containerId = c)) with
    | none => rfl
    | some x =>
        have hxmem : x ∈ entries := List.mem_of_find?_eq_some hf
        have hxcid : x.containerId = c := by
          have h2 := List.find?_some hf
          exact of_decide_eq_true h2
        by_cases hck : c ∈ known
        · simp [hck]
        · exact absurd ((mem_orphanIds entries known c).mpr ⟨x, hxmem, hxcid, hck⟩) hc

/-- C1, witness: on the concrete disk, after the fully successful
recover the known container 2 is mapped to its on-disk structure (and
the hypotheses, including success, hold). -/
theorem recover_map_reflects_disk_witness :
    alookup (recover cfgEx envAllOk ⟨[], 0⟩ (some entriesEx) knownEx).1.infos ⟨2, []⟩ =
      match entriesEx.find? (fun e => decide (e.containerId = (⟨2, []⟩ : ContainerId))) with
      | some e =>
          if (⟨2, []⟩ : ContainerId) ∈ knownEx then some (Info.mk (e.listing.getD []))
          else none
      | none => none :=
  recover_map_reflects_disk cfgEx envAllOk ⟨[], 0⟩ entriesEx knownEx ⟨2, []⟩
    rfl (by decide) (by decide) (by decide) (by decide)

end Provisioner
